import Mathlib

/-!
# Verification of the resilient RabbitMQ client (dev-forum_article)

Shallow embedding of the broker-client core: the error classifier, the
two-step circuit-breaker reporting done by `dial`, the channel arbiter
(`handleChannelReads` / `channel`), the redial loop (`ReDial`,
`handleConnectionErrors`, `NewRabbitMQ`/`run`), the resilient publish
entry point (`Broker.ResilientPublish`) and the consumer decode loop
(`Broker.Consume`).

Go machine integers and broker error codes are modelled as `Nat`; Go
channels feeding a loop are modelled as lists or streams of the values
the loop receives; fallible operations return `Option`/`Except`.
-/

namespace RabbitMQ

/-! ## AMQP error codes (constants of the amqp091-go library) -/

def ContentTooLarge : Nat := 311
def NoConsumers : Nat := 313
def ConnectionForced : Nat := 320
def InvalidPath : Nat := 402
def AccessRefused : Nat := 403
def NotFound : Nat := 404
def ResourceLocked : Nat := 405
def PreconditionFailed : Nat := 406
def FrameError : Nat := 501
def SyntaxError : Nat := 502
def CommandInvalid : Nat := 503
def ChannelError : Nat := 504
def UnexpectedFrame : Nat := 505
def ResourceError : Nat := 506
def NotAllowed : Nat := 530
def NotImplemented : Nat := 540
def InternalError : Nat := 541

/-- The two classification results used by the client
(`connectionError = 1`, `channelError = 2`). -/
def connectionError : Nat := 1

def channelError : Nat := 2

/-- `*amqp.Error`: only the code matters to the classifier. -/
structure AmqpError where
  Code : Nat
deriving DecidableEq, Repr

/-- `errorType` from the connection manager: the first `case` arm of the Go
`switch` returns `channelError`; the second arm (`ConnectionForced`,
`InvalidPath`, frame/syntax/command/channel/unexpected-frame/resource
errors, `NotAllowed`, `NotImplemented`, `InternalError`) falls through to
`default`, which returns `connectionError`. -/
def errorType (code : Nat) : Nat :=
  if code = ContentTooLarge ∨ code = NoConsumers ∨ code = AccessRefused ∨
      code = NotFound ∨ code = ResourceLocked ∨ code = PreconditionFailed then
    channelError
  else if code = ConnectionForced ∨ code = InvalidPath ∨ code = FrameError ∨
      code = SyntaxError ∨ code = CommandInvalid ∨ code = ChannelError ∨
      code = UnexpectedFrame ∨ code = ResourceError ∨ code = NotAllowed ∨
      code = NotImplemented ∨ code = InternalError then
    -- fallthrough into default
    connectionError
  else
    connectionError

/-- `isConnectionError` from the connection manager. -/
def isConnectionError (err : AmqpError) : Bool :=
  errorType err.Code = connectionError

end RabbitMQ

namespace RabbitMQ

/-- C6: The classifier is total — every code maps to exactly one of
connection-level or channel-level; content-too-large, not-found,
resource-locked, precondition-failed are channel-level; forced close,
framing errors and internal errors are connection-level; any unlisted code
defaults to connection-level; `isConnectionError` holds exactly when the
classification is connection-level. -/
theorem errorType_total_classified :
    (∀ code, errorType code = connectionError ∨ errorType code = channelError) ∧
    (∀ code, ¬(errorType code = connectionError ∧ errorType code = channelError)) ∧
    errorType ContentTooLarge = channelError ∧
    errorType NotFound = channelError ∧
    errorType ResourceLocked = channelError ∧
    errorType PreconditionFailed = channelError ∧
    errorType ConnectionForced = connectionError ∧
    errorType FrameError = connectionError ∧
    errorType UnexpectedFrame = connectionError ∧
    errorType InternalError = connectionError ∧
    (∀ code, code ∉ [ContentTooLarge, NoConsumers, AccessRefused, NotFound,
        ResourceLocked, PreconditionFailed] → errorType code = connectionError) ∧
    (∀ err : AmqpError, isConnectionError err = true ↔ errorType err.Code = connectionError) := by
  refine ⟨?_, ?_, by decide, by decide, by decide, by decide, by decide, by decide,
    by decide, by decide, ?_, ?_⟩
  · intro code
    unfold errorType
    split
    · exact Or.inr rfl
    · split <;> exact Or.inl rfl
  · intro code h
    have : connectionError ≠ channelError := by decide
    rcases h with ⟨h1, h2⟩
    exact this (h1 ▸ h2 ▸ rfl)
  · intro code hmem
    unfold errorType
    split
    · rename_i h
      exfalso
      rcases h with h | h | h | h | h | h <;> subst h <;> simp_all [List.mem_cons]
    · split <;> rfl
  · intro err
    unfold isConnectionError
    exact decide_eq_true_iff

/-- Witness for `errorType_total_classified`: the default arm at the
concrete unlisted code 999 is connection-level. -/
theorem errorType_total_classified_witness :
    errorType 999 = connectionError :=
  errorType_total_classified.2.2.2.2.2.2.2.2.2.2.1 999 (by decide)

/-! ## `dial`: breaker reporting (C1)

`dial` calls `mq.breaker.Allow()`; if allowed, it attempts the TCP dial.
On a dial error the Go code runs

```
if isConnectionError(err.(*amqp.Error)) {
    callSucceded(false)
}
// Error did not render broker unavailable.
callSucceded(true)
return err
```

— there is no `return`/`else` after `callSucceded(false)`, so execution
falls through to `callSucceded(true)`. We embed the exact sequence of
reports `dial` makes to the two-step breaker callback for each dial
outcome. -/

/-- Outcome of the underlying `amqp.Dial` attempt. -/
inductive DialResult where
  | ok
  | fail (err : AmqpError)
deriving DecidableEq, Repr

/-- The sequence of booleans `dial` passes to the callback obtained from
`breaker.Allow()` (in order), transcribed from the Go control flow. -/
def dialBreakerReports (res : DialResult) : List Bool :=
  match res with
  | .ok => [true]
  | .fail err =>
    if isConnectionError err then
      -- callSucceded(false); then falls through to callSucceded(true)
      [false, true]
    else
      [true]

/-! Model of the sony/gobreaker counters the callback drives. The two-step
breaker's `done(success)` updates `Counts`: on success
`ConsecutiveSuccesses++` and `ConsecutiveFailures = 0`; on failure
`ConsecutiveFailures++` and `ConsecutiveSuccesses = 0`, and the breaker
trips to Open once `ReadyToTrip(counts)` holds — by default (the client
sets no `ReadyToTrip`) when `ConsecutiveFailures > 5`. -/

/-- Consecutive-failure counter after one report. -/
def breakerOnReport (consecutiveFailures : Nat) (success : Bool) : Nat :=
  if success then 0 else consecutiveFailures + 1

/-- Counter after a sequence of reports. -/
def breakerAfterReports (consecutiveFailures : Nat) (reports : List Bool) : Nat :=
  reports.foldl breakerOnReport consecutiveFailures

/-- gobreaker's default trip rule: `counts.ConsecutiveFailures > 5`. -/
def readyToTrip (consecutiveFailures : Nat) : Bool :=
  consecutiveFailures > 5

/-- Counter after `n` whole dial attempts each ending in `res`. -/
def breakerAfterDials (res : DialResult) : Nat → Nat
  | 0 => 0
  | n + 1 => breakerAfterReports (breakerAfterDials res n) (dialBreakerReports res)

end RabbitMQ

namespace RabbitMQ

/-- C1 (bug evidence): on a connection-level dial failure (e.g. forced
close, code 320) the code reports the call failed AND then also succeeded
(`[false, true]`, not `[false]`), because `callSucceded(true)` is reached
by fall-through; consequently the consecutive-failure count returns to 0
after every failing dial and the breaker's default trip rule never fires,
no matter how many connection-level dial failures occur.  A channel-level
failure (e.g. not-found, 404) reports only success, as specified. -/
theorem dial_connection_failure_also_reports_success :
    dialBreakerReports (.fail ⟨ConnectionForced⟩) = [false, true] ∧
    dialBreakerReports (.fail ⟨ConnectionForced⟩) ≠ [false] ∧
    (∀ n, breakerAfterDials (.fail ⟨ConnectionForced⟩) n = 0) ∧
    (∀ n, readyToTrip (breakerAfterDials (.fail ⟨ConnectionForced⟩) n) = false) ∧
    dialBreakerReports (.fail ⟨NotFound⟩) = [true] := by
  have hzero : ∀ n, breakerAfterDials (.fail ⟨ConnectionForced⟩) n = 0 := by
    intro n
    induction n with
    | zero => rfl
    | succ k ih =>
      show breakerAfterReports (breakerAfterDials (.fail ⟨ConnectionForced⟩) k) _ = 0
      rw [ih]
      rfl
  refine ⟨rfl, by decide, hzero, ?_, rfl⟩
  intro n
  rw [hzero n]
  rfl

/-! ## Channel arbiter (C2, C7)

`handleChannelReads` (worker-pool variant, the canonical one) serves one
request `req` per worker slot:

```
succedeed, err := mq.breaker.Allow()
if err != nil { req <- nil; return }
channel, err := mq.connection.Channel()
if err != nil { req <- nil; succedeed(false); return }
succedeed(true); req <- channel
```

We embed the handling of a single request as a function of the breaker
decision and the result `mq.connection.Channel()` would return, recording
the replies sent to the one-shot slot, whether `Channel()` was invoked,
and the reports made to the breaker callback. -/

/-- A broker channel (opaque; only identity matters). -/
structure Channel where
  id : Nat
deriving DecidableEq, Repr

/-- What one iteration of the arbiter does for one request. -/
structure ChannelReadOutcome where
  replies : List (Option Channel)  -- values sent to the one-shot reply slot
  channelCalled : Bool             -- whether mq.connection.Channel() ran
  reports : List Bool              -- reports to the breaker callback
deriving DecidableEq, Repr

/-- `handleChannelReads`, single request: `allowErr` is whether
`breaker.Allow()` returned an error (breaker Open); `chanResult` is what
`mq.connection.Channel()` would return if invoked. -/
def handleChannelRead (allowErr : Bool) (chanResult : Option Channel) :
    ChannelReadOutcome :=
  if allowErr then
    { replies := [none], channelCalled := false, reports := [] }
  else
    match chanResult with
    | none => { replies := [none], channelCalled := true, reports := [false] }
    | some ch => { replies := [some ch], channelCalled := true, reports := [true] }

/-- `channel()` — the acquiring helper:

```
for {
    ask := make(chan *amqp.Channel)
    mq.readChannel <- ask
    channel := <-ask
    if channel != nil { return channel }
    time.Sleep(mq.config.ReconnectInterval)
}
```

`replies n` is the reply the arbiter sends to the n-th request issued by
this caller; the loop returns the first non-nil reply, sleeping the
reconnect interval after each nil.  Fuel bounds the number of iterations
we unroll; the Go loop itself is unbounded. -/
def channelLoop (replies : Nat → Option Channel) : Nat → Nat → Option (Nat × Channel)
  | _, 0 => none
  | attempt, fuel + 1 =>
    match replies attempt with
    | some ch => some (attempt, ch)
    | none => channelLoop replies (attempt + 1) fuel

/-- Helper: the loop returns the first non-nil reply at or after `a`. -/
theorem channelLoop_spec (replies : Nat → Option Channel) (a fuel i : Nat)
    (ch : Channel) (h : channelLoop replies a fuel = some (i, ch)) :
    a ≤ i ∧ replies i = some ch ∧ ∀ j, a ≤ j → j < i → replies j = none := by
  induction fuel generalizing a with
  | zero => simp [channelLoop] at h
  | succ f ih =>
    rw [channelLoop] at h
    cases hr : replies a with
    | some c =>
      rw [hr] at h
      obtain ⟨hi, hc⟩ : a = i ∧ c = ch := by
        have hpair := Option.some.inj h
        exact ⟨congrArg Prod.fst hpair, congrArg Prod.snd hpair⟩
      subst hi; subst hc
      exact ⟨le_refl a, hr, fun j hj1 hj2 => absurd (lt_of_le_of_lt hj1 hj2) (lt_irrefl a)⟩
    | none =>
      rw [hr] at h
      obtain ⟨h1, h2, h3⟩ := ih (a + 1) h
      refine ⟨le_trans (Nat.le_succ a) h1, h2, fun j hj1 hj2 => ?_⟩
      rcases Nat.eq_or_lt_of_le hj1 with heq | hlt
      · exact heq ▸ hr
      · exact h3 j hlt hj2

end RabbitMQ

namespace RabbitMQ

/-- C2: when the breaker denies permission (Open), the requester's
one-shot reply slot receives exactly one value, which is nil, and
`mq.connection.Channel()` is not invoked — regardless of what a channel
open would have produced. -/
theorem breaker_open_rejects_without_channel_open (chanResult : Option Channel) :
    handleChannelRead true chanResult =
      { replies := [none], channelCalled := false, reports := [] } :=
  rfl

/-- C7: if the acquiring helper returns, it returns the first non-nil
reply — so it only ever hands a non-nil channel to its caller — after
having issued one fresh request per preceding nil reply (backing off for
the reconnect interval between them); and the arbiter answers each
request with exactly one reply, never retrying acquisition internally. -/
theorem channel_caller_retries_not_arbiter (replies : Nat → Option Channel)
    (fuel i : Nat) (ch : Channel)
    (h : channelLoop replies 0 fuel = some (i, ch)) :
    replies i = some ch ∧ (∀ j, j < i → replies j = none) ∧
    (∀ allowErr chanResult, (handleChannelRead allowErr chanResult).replies.length = 1) := by
  obtain ⟨-, h2, h3⟩ := channelLoop_spec replies 0 fuel i ch h
  refine ⟨h2, fun j hj => h3 j (Nat.zero_le j) hj, ?_⟩
  intro allowErr chanResult
  cases allowErr <;> cases chanResult <;> rfl

/-- Witness for `channel_caller_retries_not_arbiter`: the arbiter replies
nil twice, then serves channel 7; the helper returns it on the third
attempt. -/
theorem channel_caller_retries_not_arbiter_witness :
    (fun n => if n < 2 then (none : Option Channel) else some ⟨7⟩) 2 = some ⟨7⟩ ∧
    (∀ j, j < 2 → (fun n => if n < 2 then (none : Option Channel) else some ⟨7⟩) j = none) ∧
    (∀ allowErr chanResult, (handleChannelRead allowErr chanResult).replies.length = 1) :=
  channel_caller_retries_not_arbiter
    (fun n => if n < 2 then none else some ⟨7⟩) 5 2 ⟨7⟩ (by decide)

/-! ## ReDial / run / handleConnectionErrors (C3, C9, C10)

`ReDial(ctx)`:

```
for {
    mq.logger.Log(ctx, "Reconnecting to RabbitMQ")
    err := mq.dial()
    if err == nil { return }
    mq.logger.Log(ctx, "Failed to connect to RabbitMQ", "err", err)
    time.Sleep(mq.config.ReconnectInterval)
}
```

`dialOk n` is whether the n-th `dial()` attempt succeeds; `cancelled n`
is whether `ctx` is already cancelled when the n-th iteration runs.  The
loop body uses `ctx` only for logging and never checks `ctx.Done()` or
`ctx.Err()`, so the embedding receives `cancelled` but — exactly like the
Go — never consults it.  Fuel bounds the unrolling; the Go loop is
unbounded.  The returned value is the index of the succeeding attempt. -/

def reDial (dialOk : Nat → Bool) (cancelled : Nat → Bool) : Nat → Nat → Option Nat
  | _, 0 => none
  | attempt, fuel + 1 =>
    if dialOk attempt then some attempt
    else
      -- time.Sleep(ReconnectInterval), then next iteration
      reDial dialOk cancelled (attempt + 1) fuel

/-- `ReDial` terminates on the given dial/cancellation behaviour iff some
finite unrolling of the loop returns. -/
def ReDialTerminates (dialOk cancelled : Nat → Bool) : Prop :=
  ∃ fuel, (reDial dialOk cancelled 0 fuel).isSome

/-- Helper: a returned index is the first successful attempt at or after
the starting point. -/
theorem reDial_spec (dialOk cancelled : Nat → Bool) (a fuel i : Nat)
    (h : reDial dialOk cancelled a fuel = some i) :
    a ≤ i ∧ dialOk i = true ∧ ∀ j, a ≤ j → j < i → dialOk j = false := by
  induction fuel generalizing a with
  | zero => simp [reDial] at h
  | succ f ih =>
    rw [reDial] at h
    by_cases hd : dialOk a = true
    · rw [if_pos hd] at h
      have ha : a = i := Option.some.inj h
      subst ha
      exact ⟨le_refl a, hd, fun j hj1 hj2 => absurd (lt_of_le_of_lt hj1 hj2) (lt_irrefl a)⟩
    · rw [if_neg hd] at h
      obtain ⟨h1, h2, h3⟩ := ih (a + 1) h
      refine ⟨le_trans (Nat.le_succ a) h1, h2, fun j hj1 hj2 => ?_⟩
      rcases Nat.eq_or_lt_of_le hj1 with heq | hlt
      · exact heq ▸ (Bool.not_eq_true _).mp hd
      · exact h3 j hlt hj2

/-- Helper: if some attempt within the fuel succeeds, the loop returns. -/
theorem reDial_of_success (dialOk cancelled : Nat → Bool) (a fuel : Nat)
    (h : ∃ k, k < fuel ∧ dialOk (a + k) = true) :
    (reDial dialOk cancelled a fuel).isSome := by
  induction fuel generalizing a with
  | zero =>
    obtain ⟨k, hk, -⟩ := h
    exact absurd hk (Nat.not_lt_zero k)
  | succ f ih =>
    rw [reDial]
    by_cases hd : dialOk a = true
    · rw [if_pos hd]; rfl
    · rw [if_neg hd]
      obtain ⟨k, hk, hko⟩ := h
      cases k with
      | zero => exact absurd hko hd
      | succ k' =>
        refine ih (a + 1) ⟨k', Nat.lt_of_succ_lt_succ hk, ?_⟩
        have : a + 1 + k' = a + (k' + 1) := by omega
        rw [this]
        exact hko

/-- Helper: when every attempt fails, the loop never returns. -/
theorem reDial_allFail (cancelled : Nat → Bool) (a fuel : Nat) :
    reDial (fun _ => false) cancelled a fuel = none := by
  induction fuel generalizing a with
  | zero => rfl
  | succ f ih =>
    rw [reDial]
    exact ih (a + 1)

/-- `run`, called by `NewRabbitMQ` before returning the struct:

```
mq.ReDial(mq.ctx)
go mq.runPublishQueue(mq.ctx)
go mq.handleConnectionErrors(mq.ctx)
go mq.handleChannelReads(mq.ctx)
```

`mq.ctx` cannot be cancelled before `NewRabbitMQ` returns (the cancel
function is only reachable through `Close` on the returned struct), so
the redial loop runs with `cancelled = fun _ => false`.  The trace
records what happened by the time the constructor returns. -/
structure ConstructorTrace where
  dialAttempts : Nat       -- dial() calls made before NewRabbitMQ returned
  sleeps : Nat             -- reconnect-interval sleeps taken
  backgroundStarted : Bool -- the three goroutines are started
deriving DecidableEq, Repr

def newRabbitMQ (dialOk : Nat → Bool) (fuel : Nat) : Option ConstructorTrace :=
  match reDial dialOk (fun _ => false) 0 fuel with
  | none => none   -- still blocked inside mq.run()'s ReDial
  | some i => some { dialAttempts := i + 1, sleeps := i, backgroundStarted := true }

/-- `handleConnectionErrors`: for each value read from `notifyConnClose`,

```
case e := <-mq.notifyConnClose:
    if e == nil { continue }
    mq.ReDial(ctx)
```

We record which notifications trigger a `ReDial`. -/
def connCloseRedials : List (Option AmqpError) → List AmqpError
  | [] => []
  | none :: rest => connCloseRedials rest           -- continue
  | some e :: rest => e :: connCloseRedials rest    -- mq.ReDial(ctx)

end RabbitMQ

namespace RabbitMQ

/-- C3 (counterexample): with every dial attempt failing and the context
cancelled from the very first iteration, the redial loop still never
terminates — cancellation does not stop the retry loop, contrary to the
claim. -/
theorem redial_ignores_cancellation :
    ReDialTerminates (fun _ => false) (fun _ => true) ↔ False := by
  constructor
  · rintro ⟨fuel, hfuel⟩
    rw [reDial_allFail (fun _ => true) 0 fuel] at hfuel
    exact Bool.false_ne_true hfuel
  · exact False.elim

/-- C3 (amended): the redial loop, once triggered, retries `dial` with the
fixed reconnect interval between attempts (one sleep after each failed
attempt) and stops exactly when a dial succeeds — the succeeding attempt
is the first success; cancelling the context does not terminate the loop
(termination is unaffected by the cancellation behaviour). -/
theorem redial_stops_exactly_on_success (dialOk cancelled : Nat → Bool) :
    (∀ fuel i, reDial dialOk cancelled 0 fuel = some i →
      dialOk i = true ∧ ∀ j, j < i → dialOk j = false) ∧
    (ReDialTerminates dialOk cancelled ↔ ∃ n, dialOk n = true) ∧
    (ReDialTerminates dialOk cancelled ↔ ReDialTerminates dialOk (fun _ => true)) := by
  have hiff : ∀ c : Nat → Bool, ReDialTerminates dialOk c ↔ ∃ n, dialOk n = true := by
    intro c
    constructor
    · rintro ⟨fuel, hfuel⟩
      cases hr : reDial dialOk c 0 fuel with
      | none => rw [hr] at hfuel; exact absurd hfuel (by simp)
      | some i => exact ⟨i, (reDial_spec dialOk c 0 fuel i hr).2.1⟩
    · rintro ⟨n, hn⟩
      exact ⟨n + 1, reDial_of_success dialOk c 0 (n + 1)
        ⟨n, Nat.lt_succ_self n, by simpa using hn⟩⟩
  refine ⟨?_, hiff cancelled, (hiff cancelled).trans (hiff (fun _ => true)).symm⟩
  intro fuel i h
  obtain ⟨-, h2, h3⟩ := reDial_spec dialOk cancelled 0 fuel i h
  exact ⟨h2, fun j hj => h3 j (Nat.zero_le j) hj⟩

/-- C9: the constructor does not return while every dial attempt fails
(unbounded blocking, no attempt ceiling), and when it returns the
succeeding dial was the first success, the loop slept once per failed
attempt, and only then are the background goroutines started. -/
theorem newRabbitMQ_blocks_until_dial_succeeds (dialOk : Nat → Bool) :
    ((∀ n, dialOk n = false) → ∀ fuel, newRabbitMQ dialOk fuel = none) ∧
    (∀ fuel t, newRabbitMQ dialOk fuel = some t →
      t.backgroundStarted = true ∧
      dialOk t.sleeps = true ∧
      (∀ j, j < t.sleeps → dialOk j = false) ∧
      t.dialAttempts = t.sleeps + 1) := by
  constructor
  · intro hall fuel
    have hfn : dialOk = fun _ => false := funext hall
    rw [newRabbitMQ, hfn, reDial_allFail]
  · intro fuel t h
    rw [newRabbitMQ] at h
    cases hr : reDial dialOk (fun _ => false) 0 fuel with
    | none => rw [hr] at h; exact absurd h (by simp)
    | some i =>
      rw [hr] at h
      obtain ⟨-, h2, h3⟩ := reDial_spec dialOk (fun _ => false) 0 fuel i hr
      have ht : t = { dialAttempts := i + 1, sleeps := i, backgroundStarted := true } :=
        (Option.some.inj h).symm
      subst ht
      exact ⟨rfl, h2, fun j hj => h3 j (Nat.zero_le j) hj, rfl⟩

/-- Witness for `newRabbitMQ_blocks_until_dial_succeeds`: dial succeeds on
the third attempt; the constructor made 3 attempts, slept twice, and
started the background goroutines. -/
theorem newRabbitMQ_blocks_until_dial_succeeds_witness :
    (fun n => decide (n = 2)) 2 = true ∧
    (∀ j, j < 2 → (fun n => decide (n = 2)) j = false) ∧
    (2 : Nat) + 1 = 2 + 1 := by
  have h := (newRabbitMQ_blocks_until_dial_succeeds (fun n => decide (n = 2))).2
    5 { dialAttempts := 3, sleeps := 2, backgroundStarted := true } (by decide)
  exact ⟨h.2.1, h.2.2.1, rfl⟩

/-- C10: a nil value read from the close-notification channel does not
trigger a redial (the handler just continues waiting); a redial occurs
exactly for each non-nil error notification, in order. -/
theorem nil_close_notification_does_not_redial :
    (∀ rest, connCloseRedials (none :: rest) = connCloseRedials rest) ∧
    (∀ e rest, connCloseRedials (some e :: rest) = e :: connCloseRedials rest) ∧
    (∀ ns, connCloseRedials ns = ns.reduceOption) := by
  refine ⟨fun rest => rfl, fun e rest => rfl, ?_⟩
  intro ns
  induction ns with
  | nil => rfl
  | cons hd tl ih =>
    cases hd with
    | none => rw [connCloseRedials, ih]; simp [List.reduceOption]
    | some e => rw [connCloseRedials, ih]; simp [List.reduceOption]

end RabbitMQ

namespace Broker

open RabbitMQ

/-! ## The broker wrapper (C4, C5)

`broker.Broker` wraps `rabbitmq.RabbitMQ`.  The `event.Event` domain
payload carries an entity tag, an event-type, an opaque body and a
timestamp; the wire `Message` carries a routing key, a content-type tag
and an opaque byte payload (§3 of the spec; the `Message` type itself and
`MessageFromEvent`/`Enqueue` live in rabbitmq-package files that are not
under src/). -/

structure Event where
  Entity : String
  type : String  -- Go field `Type` (keyword in Lean)
  Body : List Nat
  Timestamp : Nat
deriving DecidableEq, Repr

structure Message where
  Route : String
  ContentType : String
  Body : List Nat
deriving DecidableEq, Repr

/-- `Broker.Consume`'s decode goroutine:

```
for message := range messages {
    event := event.Event{}
    err := json.Unmarshal(message.Body, &event)
    if err != nil {
        b.logger.Log(ctx, "Failed to process message", "err", err)
        continue
    }
    events <- event
}
```

`decode` abstracts `json.Unmarshal` into an `event.Event`; the list is
the sequence of wire messages received from the underlying delivery
stream, and the result is the sequence of events sent on the returned
stream. -/
def consumeLoop (decode : List Nat → Option Event) : List Message → List Event
  | [] => []
  | m :: rest =>
    match decode m.Body with
    | none => consumeLoop decode rest        -- log and continue
    | some e => e :: consumeLoop decode rest -- events <- event

/-- Modelled from the spec: `MessageFromEvent` (rabbitmq package, file not
under src/) converts an event into a wire message — routing key derived
deterministically from the event type, a content-type tag, and the
serialized payload; the Go call site `msg := MessageFromEvent(e)` is
single-valued, so conversion reports no error.  `serialize` abstracts the
payload encoding and `routeOf` the routing-key derivation. -/
def MessageFromEvent (serialize : Event → List Nat) (routeOf : String → String)
    (e : Event) : Message :=
  { Route := routeOf e.type, ContentType := "application/json", Body := serialize e }

/-- The only error `Enqueue` can signal. -/
inductive EnqueueError where
  | queueFull
deriving DecidableEq, Repr

/-- Modelled from the spec: `Enqueue` (rabbitmq package, file not under
src/) places the message on the bounded publish queue — a buffered Go
channel of capacity `QueueSize` — failing exactly when the queue is at
capacity, without blocking. -/
def Enqueue (capacity : Nat) (queue : List Message) (m : Message) :
    Except EnqueueError (List Message) :=
  if queue.length < capacity then .ok (queue ++ [m]) else .error .queueFull

/-- `Broker.ResilientPublish`:

```
msg := MessageFromEvent(e)
if err := b.messageQueue.Enqueue(msg); err != nil {
    return err
}
return nil
```

The result carries the publish queue after the call (`.ok`) or the error
returned to the caller (`.error`).  No broker connection is consulted
anywhere on this path. -/
def ResilientPublish (serialize : Event → List Nat) (routeOf : String → String)
    (capacity : Nat) (queue : List Message) (e : Event) :
    Except EnqueueError (List Message) :=
  let msg := MessageFromEvent serialize routeOf e
  match Enqueue capacity queue msg with
  | .error err => .error err
  | .ok q => .ok q

/-- A concrete event used to instantiate the theorems below. -/
def sampleEvent : Event :=
  { Entity := "article", type := "created", Body := [1], Timestamp := 0 }

end Broker

namespace Broker

open RabbitMQ

/-- C5: the decode loop forwards exactly the successfully decoded events,
in order; a message whose body fails to decode is dropped and the loop
continues, so a malformed message anywhere in the stream never terminates
it and never suppresses later valid events. -/
theorem consume_drops_malformed_and_continues (decode : List Nat → Option Event) :
    (∀ msgs, consumeLoop decode msgs = msgs.filterMap (fun m => decode m.Body)) ∧
    (∀ pre m post, decode m.Body = none →
      consumeLoop decode (pre ++ m :: post) = consumeLoop decode (pre ++ post)) := by
  have hchar : ∀ msgs, consumeLoop decode msgs = msgs.filterMap (fun m => decode m.Body) := by
    intro msgs
    induction msgs with
    | nil => rfl
    | cons hd tl ih =>
      rw [consumeLoop]
      cases hd' : decode hd.Body with
      | none => rw [ih]; simp [List.filterMap_cons, hd']
      | some e => rw [ih]; simp [List.filterMap_cons, hd']
  refine ⟨hchar, ?_⟩
  intro pre m post hm
  rw [hchar, hchar]
  simp [List.filterMap_append, List.filterMap_cons, hm]

/-- Witness for `consume_drops_malformed_and_continues`: with a decoder
accepting only body `[1]`, the stream malformed-then-valid produces
exactly the valid event. -/
theorem consume_drops_malformed_and_continues_witness :
    consumeLoop
        (fun b => if b = [1] then some sampleEvent else none)
        [{ Route := "r", ContentType := "c", Body := [9, 9] },
         { Route := "r", ContentType := "c", Body := [1] }] =
      [sampleEvent] := by
  have h := (consume_drops_malformed_and_continues
    (fun b => if b = [1] then some sampleEvent else none)).2
    [] { Route := "r", ContentType := "c", Body := [9, 9] }
    [{ Route := "r", ContentType := "c", Body := [1] }] (by decide)
  rw [List.nil_append, List.nil_append] at h
  rw [h]
  rfl

/-- C4: `ResilientPublish` returns an error only when the bounded queue
is at capacity (and that error is the capacity error); in every other
case it appends the converted message to the queue and returns — the
definition consults no broker state, so the result is independent of
broker reachability. -/
theorem resilientPublish_errors_only_on_capacity (serialize : Event → List Nat)
    (routeOf : String → String) (capacity : Nat) (queue : List Message) (e : Event) :
    (∀ err, ResilientPublish serialize routeOf capacity queue e = .error err →
      err = .queueFull ∧ capacity ≤ queue.length) ∧
    (queue.length < capacity →
      ResilientPublish serialize routeOf capacity queue e =
        .ok (queue ++ [MessageFromEvent serialize routeOf e])) := by
  constructor
  · intro err herr
    rw [ResilientPublish] at herr
    by_cases hlen : queue.length < capacity
    · rw [Enqueue, if_pos hlen] at herr
      exact absurd herr (by simp)
    · rw [Enqueue, if_neg hlen] at herr
      have : EnqueueError.queueFull = err := by
        cases err
        rfl
      exact ⟨this.symm, Nat.le_of_not_lt hlen⟩
  · intro hlen
    rw [ResilientPublish, Enqueue, if_pos hlen]

/-- Witness for `resilientPublish_errors_only_on_capacity`: with capacity
2 and a one-element queue, the publish enqueues and succeeds. -/
theorem resilientPublish_errors_only_on_capacity_witness :
    ResilientPublish (fun _ => [0]) (fun t => t) 2
        [{ Route := "r", ContentType := "c", Body := [] }] sampleEvent =
      .ok [{ Route := "r", ContentType := "c", Body := [] },
           MessageFromEvent (fun _ => [0]) (fun t => t) sampleEvent] :=
  (resilientPublish_errors_only_on_capacity (fun _ => [0]) (fun t => t) 2
    [{ Route := "r", ContentType := "c", Body := [] }] sampleEvent).2 (by decide)

end Broker


namespace RabbitMQ

/-- Witness for `redial_stops_exactly_on_success`: with dial succeeding
only on attempt 1, the loop (context cancelled throughout) returns
attempt 1, the first success. -/
theorem redial_stops_exactly_on_success_witness :
    (fun n => decide (n = 1)) 1 = true ∧
    (∀ j, j < 1 → (fun n => decide (n = 1)) j = false) :=
  (redial_stops_exactly_on_success (fun n => decide (n = 1)) (fun _ => true)).1
    3 1 (by decide)

/-! ## Access sites of the connection reference (C8)

`mq.connection` is written once and read in two places in the worker-pool
variant of the connection manager:

* `dial` — `mq.mutex.Lock(); defer mq.mutex.Unlock(); mq.connection = conn`:
  the only write, performed holding the exclusive lock;
* `handleChannelReads` — `channel, err := mq.connection.Channel()`: a read
  performed inside the worker goroutines spawned by the arbiter loop,
  without taking `mq.mutex` (no `RLock` appears anywhere in the file);
* `Close` — `if mq.connection != nil && !mq.connection.IsClosed() { ...
  mq.connection.Close() }`: a read performed directly by the caller of
  `Close`, without the lock and outside the arbiter.

We record each access site with the synchronization it actually uses. -/

inductive AccessKind where
  | read
  | write
deriving DecidableEq, Repr

structure ConnAccess where
  site : String          -- the function containing the access
  kind : AccessKind
  holdsMutex : Bool      -- access performed while mq.mutex is held
  viaArbiterLoop : Bool  -- access performed by the arbiter loop / its workers
deriving DecidableEq, Repr

/-- The access sites of `mq.connection`, read off the source. -/
def connectionAccesses : List ConnAccess :=
  [ { site := "dial", kind := .write, holdsMutex := true, viaArbiterLoop := false },
    { site := "handleChannelReads", kind := .read, holdsMutex := false,
      viaArbiterLoop := true },
    { site := "Close", kind := .read, holdsMutex := false, viaArbiterLoop := false } ]

/-- The discipline asserted by the claim: writes hold the exclusive lock;
reads are mediated through the lock or the arbiter loop. -/
def followsDiscipline (a : ConnAccess) : Bool :=
  match a.kind with
  | .write => a.holdsMutex
  | .read => a.holdsMutex || a.viaArbiterLoop

end RabbitMQ

namespace RabbitMQ

/-- C8 (counterexample): the connection is accessed outside the
read-and-swap discipline — the read in `Close` holds no lock and is not
mediated by the arbiter loop, so not every access follows the asserted
discipline. -/
theorem close_reads_connection_unmediated :
    connectionAccesses.all followsDiscipline = false ∧
    (connectionAccesses.filter fun a => ! followsDiscipline a) =
      [{ site := "Close", kind := .read, holdsMutex := false, viaArbiterLoop := false }] := by
  constructor <;> rfl

/-- C8 (amended): every replacement (write) of the connection reference
happens under the exclusive write lock; the channel-open reads are issued
by the arbiter loop's workers without holding the lock; and the read in
`Close` is performed with neither the lock nor arbiter mediation — so the
discipline holds for writes and for channel opens, but not for `Close`. -/
theorem connection_access_discipline :
    (connectionAccesses.filter fun a => a.kind == .write).all (fun a => a.holdsMutex) = true ∧
    (connectionAccesses.filter fun a => a.kind == .read).all (fun a => ! a.holdsMutex) = true ∧
    ((connectionAccesses.filter fun a => a.site == "handleChannelReads").all
      fun a => a.viaArbiterLoop && ! a.holdsMutex) = true ∧
    ((connectionAccesses.filter fun a => a.site == "Close").all
      fun a => ! a.viaArbiterLoop && ! a.holdsMutex) = true := by
  refine ⟨rfl, rfl, rfl, rfl⟩

end RabbitMQ
